import Mathlib

/-!
Verification of the FFTCG card-data scripts (fetch/normalize/merge pipeline).

The Python sources are shallowly embedded:
* JSON-like heterogeneous Python values are `JValue`; a raw API record is an
  association list `RawCard`.
* Python expressions that can raise are embedded in `Except PyErr`; the error
  constructors follow the Python exception classes that the expressions raise.
* `str.isdigit`, `str.lower`, `str.upper` and `int()` are modelled on ASCII
  text (card data in this repository is ASCII); Python string comparison is
  by code points, which coincides with the `String` linear order used below.
-/

namespace FFTCG

/-- Model of a Python/JSON value as stored in the raw API records.
Numbers are modelled as integers (the card fields in play carry ints or
digit strings; floats do not occur in the data handled by these scripts). -/
inductive JValue where
  | jnull : JValue
  | jbool : Bool → JValue
  | jnum : Int → JValue
  | jstr : String → JValue
  | jarr : List JValue → JValue
  | jobj : List (String × JValue) → JValue

/-- Python exception classes raised by the embedded expressions. -/
inductive PyErr where
  | keyError : PyErr
  | typeError : PyErr
  | attributeError : PyErr
  | indexError : PyErr
  | valueError : PyErr
deriving DecidableEq, Repr

/-- One raw card record: a string-keyed Python dict with heterogeneous values. -/
abbrev RawCard := List (String × JValue)

/-- First-match association-list lookup (Python dict access on a dict whose
keys are listed in insertion order and are distinct). -/
def alookup {α : Type} (k : String) : List (String × α) → Option α
  | [] => none
  | (k', v) :: rest => if k' = k then some v else alookup k rest

/-- Python `d.get(k, default)`. -/
def pyGetD (r : RawCard) (k : String) (d : JValue) : JValue :=
  (alookup k r).getD d

/-- Python `d[k]`: raises `KeyError` when the key is absent. -/
def pyGetItem (r : RawCard) (k : String) : Except PyErr JValue :=
  match alookup k r with
  | some v => .ok v
  | none => .error .keyError

/-- Python truthiness of a value. -/
def truthy : JValue → Bool
  | .jnull => false
  | .jbool b => b
  | .jnum n => n != 0
  | .jstr s => s != ""
  | .jarr l => !l.isEmpty
  | .jobj l => !l.isEmpty

/-- Python `len(v)`: defined for strings, lists and dicts, `TypeError` otherwise. -/
def pyLen : JValue → Except PyErr Nat
  | .jstr s => .ok s.length
  | .jarr l => .ok l.length
  | .jobj l => .ok l.length
  | _ => .error .typeError

/-- Python `v[0]`: first character of a string (as a 1-character string),
head of a list; a dict lookup of the integer key `0` fails (`KeyError`,
since the dicts in play have string keys); `TypeError` on scalars. -/
def pyIndex0 : JValue → Except PyErr JValue
  | .jstr s =>
    match s.data with
    | [] => .error .indexError
    | c :: _ => .ok (.jstr (String.mk [c]))
  | .jarr l =>
    match l with
    | [] => .error .indexError
    | x :: _ => .ok x
  | .jobj _ => .error .keyError
  | _ => .error .typeError

/-- ASCII lowercasing of a string (Python `str.lower` restricted to ASCII). -/
def lowerStr (s : String) : String := String.mk (s.data.map Char.toLower)

/-- ASCII uppercasing of a string (Python `str.upper` restricted to ASCII). -/
def upperStr (s : String) : String := String.mk (s.data.map Char.toUpper)

/-- Decimal-digit test for one character (ASCII `0`..`9`). -/
def charIsDigit (c : Char) : Bool := 48 ≤ c.toNat && c.toNat ≤ 57

/-- Python `s.isdigit()` (ASCII): nonempty and all characters decimal digits. -/
def pyIsDigit (s : String) : Bool := !s.data.isEmpty && s.data.all charIsDigit

/-- Numeric value of a decimal digit string (Python `int(s)` on a string of
digits). -/
def natOfDigits (cs : List Char) : Nat :=
  cs.foldl (fun a c => 10 * a + (c.toNat - 48)) 0

/-- A single-quote character, used by the Python `repr` of strings. -/
def squote : String := String.mk [Char.ofNat 39]

mutual

/-- Python `str(v)`. For a string it is the string itself; every other value
falls back to its `repr`-style rendering. -/
def pyStr : JValue → String
  | .jstr s => s
  | .jnull => "None"
  | .jbool true => "True"
  | .jbool false => "False"
  | .jnum n => toString n
  | .jarr l => "[" ++ pyReprList l ++ "]"
  | .jobj l => "\x7b" ++ pyReprObj l ++ "\x7d"

/-- Python `repr(v)` as used inside container renderings (string quoting of
nested strings is modelled without escape handling). -/
def pyRepr : JValue → String
  | .jstr s => squote ++ s ++ squote
  | .jnull => "None"
  | .jbool true => "True"
  | .jbool false => "False"
  | .jnum n => toString n
  | .jarr l => "[" ++ pyReprList l ++ "]"
  | .jobj l => "\x7b" ++ pyReprObj l ++ "\x7d"

/-- Comma-separated rendering of list elements. -/
def pyReprList : List JValue → String
  | [] => ""
  | [x] => pyRepr x
  | x :: xs => pyRepr x ++ ", " ++ pyReprList xs

/-- Comma-separated rendering of dict items. -/
def pyReprObj : List (String × JValue) → String
  | [] => ""
  | [(k, v)] => squote ++ k ++ squote ++ ": " ++ pyRepr v
  | (k, v) :: xs => squote ++ k ++ squote ++ ": " ++ pyRepr v ++ ", " ++ pyReprObj xs

end

/-- Substring test on character lists: does `hay` contain `needle` as a
contiguous infix. Models Python `needle in hay` for strings. -/
def containsSub (needle : List Char) : List Char → Bool
  | [] => needle.isEmpty
  | c :: rest => needle.isPrefixOf (c :: rest) || containsSub needle rest

/-- Python `needle in v` for a string needle: key test on a dict, membership
on a list (string elements compare equal to the needle, all other values
compare unequal), substring test on a string, `TypeError` on scalars. -/
def pyContains (needle : String) : JValue → Except PyErr Bool
  | .jobj kvs => .ok (kvs.any (fun kv => kv.1 == needle))
  | .jarr l =>
    .ok (l.any (fun x =>
      match x with
      | .jstr s => s == needle
      | _ => false))
  | .jstr s => .ok (containsSub needle.data s.data)
  | _ => .error .typeError

/-- Python `v[k]` for a string key `k` on an arbitrary value: dict lookup
(`KeyError` when absent), `TypeError` when `v` is a string, a list, or a
scalar (string keys cannot index those). -/
def pyGetItemJ (v : JValue) (k : String) : Except PyErr JValue :=
  match v with
  | .jobj kvs =>
    match alookup k kvs with
    | some w => .ok w
    | none => .error .keyError
  | _ => .error .typeError

end FFTCG

namespace FFTCG

/-! ### Field normalizers (fetch_fftcg_data.py, fftcg_database_manager.py,
fetch_missing_sets.py, extract_all_cards.py) -/

/-- The Japanese-to-English element lookup table shared by all scripts. -/
def elementTable : List (String × String) :=
  [("火", "fire"), ("氷", "ice"), ("風", "wind"), ("雷", "lightning"),
   ("水", "water"), ("土", "earth"), ("光", "light"), ("闇", "dark")]

/-- The card-type lookup table shared by all scripts. -/
def typeTable : List (String × String) :=
  [("Forward", "forward"), ("Backup", "backup"),
   ("Summon", "summon"), ("Monster", "monster")]

/-- fetch_fftcg_data.py `element_mapping`: `mapping.get(element_jp,
element_jp.lower())`. The default argument is evaluated eagerly, so a
non-string input raises `AttributeError` at `.lower()` before the lookup. -/
def element_mapping_fd (x : JValue) : Except PyErr String :=
  match x with
  | .jstr s => .ok ((alookup s elementTable).getD (lowerStr s))
  | _ => .error .attributeError

/-- fftcg_database_manager.py / fetch_missing_sets.py `element_mapping`
(null-safe variant): falsy input yields "unknown". -/
def element_mapping_m (x : JValue) : Except PyErr String :=
  if truthy x then element_mapping_fd x else .ok "unknown"

/-- fetch_fftcg_data.py `type_mapping`: `mapping.get(type_en,
type_en.lower())` with the eager default. -/
def type_mapping_fd (x : JValue) : Except PyErr String :=
  match x with
  | .jstr s => .ok ((alookup s typeTable).getD (lowerStr s))
  | _ => .error .attributeError

/-- fftcg_database_manager.py / fetch_missing_sets.py `type_mapping`
(null-safe variant): falsy input yields "unknown". -/
def type_mapping_m (x : JValue) : Except PyErr String :=
  if truthy x then type_mapping_fd x else .ok "unknown"

/-- fftcg_database_manager.py / fetch_missing_sets.py `safe_int(value,
default)`: `int(value) if value and str(value).isdigit() else default`,
with a bare `except` returning the default (the guard makes the `int`
conversion total on the guarded values, so the `except` arm is dead). -/
def safe_int (value : JValue) (default : Int) : Int :=
  if truthy value && pyIsDigit (pyStr value) then
    match value with
    | .jstr s => (natOfDigits s.data : Int)
    | .jnum n => n
    | _ => default
  else default

/-- fetch_missing_sets.py `rarity_mapping`: "C" on falsy input, otherwise
`str(rarity).upper()`. -/
def rarity_mapping (rarity : JValue) : String :=
  if truthy rarity then upperStr (pyStr rarity) else "C"

/-- fetch_fftcg_data.py `rarity_mapping`: `rarity.upper()` with no null
safety; raises `AttributeError` on a non-string. -/
def rarity_mapping_fd (x : JValue) : Except PyErr String :=
  match x with
  | .jstr s => .ok (upperStr s)
  | _ => .error .attributeError

/-- fftcg_database_manager.py rarity normalization:
`str(card_data.get("rarity", "C")).upper()` — total. -/
def m_rarity (r : RawCard) : String :=
  upperStr (pyStr (pyGetD r "rarity" (.jstr "C")))

/-- One canonical card record as built by the normalizers. Fields copied
verbatim from the raw record keep their heterogeneous `JValue` type; fields
computed through the mapping helpers are strings/integers as produced. -/
structure NCard where
  id : JValue
  name : JValue
  element : String
  type : String
  cost : Int
  power : Option Int
  job : JValue
  category : JValue
  rarity : String
  text : JValue
  set : String
  cardNumber : JValue
  image : Option JValue
  source : String
  hasRealImage : Bool

/-- fetch_fftcg_data.py element field:
`element_mapping(card_data["element"][0]) if card_data["element"] else
"unknown"` (the key has already been checked present by the caller). -/
def fd_element (ev : JValue) : Except PyErr String :=
  if truthy ev then do
    let e0 ← pyIndex0 ev
    element_mapping_fd e0
  else .ok "unknown"

/-- fetch_fftcg_data.py cost field: `int(card_data.get("cost", 0)) if
card_data.get("cost", "").isdigit() else 0`. `isdigit` on a present
non-string value raises `AttributeError`. -/
def fd_cost (r : RawCard) : Except PyErr Int :=
  match alookup "cost" r with
  | none => .ok 0
  | some (.jstr s) => .ok (if pyIsDigit s then (natOfDigits s.data : Int) else 0)
  | some _ => .error .attributeError

/-- fetch_fftcg_data.py power field: like cost but defaulting to absent. -/
def fd_power (r : RawCard) : Except PyErr (Option Int) :=
  match alookup "power" r with
  | none => .ok none
  | some (.jstr s) => .ok (if pyIsDigit s then some (natOfDigits s.data : Int) else none)
  | some _ => .error .attributeError

/-- fetch_fftcg_data.py image field: `if "images" in card_data and "full" in
card_data["images"]: card["image"] = card_data["images"]["full"][0]` — note
the missing nonemptiness check before the `[0]` index. -/
def fd_image (r : RawCard) : Except PyErr (Option JValue) :=
  match alookup "images" r with
  | none => .ok none
  | some vi => do
    let b ← pyContains "full" vi
    if b then do
      let fv ← pyGetItemJ vi "full"
      let x ← pyIndex0 fv
      pure (some x)
    else pure none

/-- fetch_fftcg_data.py `fetch_set_data` per-card conversion (lines 80-101):
the dict-literal fields are evaluated top to bottom, and the first raising
subexpression aborts the record with that exception. -/
def fetchDataNormalize (card_data : RawCard) (set_name : String) :
    Except PyErr NCard := do
  let idv ← pyGetItem card_data "code"
  let ev ← pyGetItem card_data "element"
  let element ← fd_element ev
  let ty ← type_mapping_fd (pyGetD card_data "type_en" (.jstr ""))
  let cost ← fd_cost card_data
  let power ← fd_power card_data
  let rarity ← rarity_mapping_fd (pyGetD card_data "rarity" (.jstr ""))
  let image ← fd_image card_data
  pure
    { id := idv
      name := pyGetD card_data "name_en" (.jstr "")
      element := element
      type := ty
      cost := cost
      power := power
      job := pyGetD card_data "job_en" (.jstr "")
      category := pyGetD card_data "category_1" (.jstr "")
      rarity := rarity
      text := pyGetD card_data "text_en" (.jstr "")
      set := set_name
      cardNumber := idv
      image := image
      source := "square-api"
      hasRealImage := true }

/-- fftcg_database_manager.py element field: `element = "unknown"; if
card_data.get("element") and len(card_data["element"]) > 0: element =
element_mapping(card_data["element"][0])`. -/
def m_element (r : RawCard) : Except PyErr String :=
  match alookup "element" r with
  | none => .ok "unknown"
  | some ev =>
    if truthy ev then do
      let n ← pyLen ev
      if n > 0 then do
        let e0 ← pyIndex0 ev
        element_mapping_m e0
      else .ok "unknown"
    else .ok "unknown"

/-- fftcg_database_manager.py image field: like fetch_fftcg_data.py but with
an additional truthiness check on `card_data["images"]["full"]` before the
`[0]` index. -/
def m_image (r : RawCard) : Except PyErr (Option JValue) :=
  match alookup "images" r with
  | none => .ok none
  | some vi => do
    let b ← pyContains "full" vi
    if b then do
      let fv ← pyGetItemJ vi "full"
      if truthy fv then do
        let x ← pyIndex0 fv
        pure (some x)
      else pure none
    else pure none

/-- fftcg_database_manager.py `fetch_set_data` per-card conversion (lines
96-121), before the surrounding per-card try/except. -/
def manager_normalize (card_data : RawCard) (set_name : String) :
    Except PyErr NCard := do
  let element ← m_element card_data
  let ty ← type_mapping_m (pyGetD card_data "type_en" (.jstr ""))
  let image ← m_image card_data
  pure
    { id := pyGetD card_data "code" (.jstr "unknown")
      name := pyGetD card_data "name_en" (.jstr "")
      element := element
      type := ty
      cost := safe_int (pyGetD card_data "cost" .jnull) 0
      power :=
        if truthy (pyGetD card_data "power" .jnull) then
          some (safe_int (pyGetD card_data "power" .jnull) 0)
        else none
      job := pyGetD card_data "job_en" (.jstr "")
      category := pyGetD card_data "category_1" (.jstr "")
      rarity := m_rarity card_data
      text := pyGetD card_data "text_en" (.jstr "")
      set := set_name
      cardNumber := pyGetD card_data "code" (.jstr "unknown")
      image := image
      source := "square-api"
      hasRealImage := true }

/-- fftcg_database_manager.py `fetch_set_data` card loop: each record is
converted inside `try: ... except: continue`, so a record whose conversion
raises is skipped and the loop carries on. -/
def manager_processCards (raws : List RawCard) (set_name : String) :
    List NCard :=
  match raws with
  | [] => []
  | r :: rest =>
    match manager_normalize r set_name with
    | .ok c => c :: manager_processCards rest set_name
    | .error _ => manager_processCards rest set_name

end FFTCG

namespace FFTCG

/-! ### Image URL resolvers (fftcg_database_manager.py,
update_image_mapping.py, generate_materia_hunter_mapping.py) -/

/-- The regex `^(\d+)-` applied to a card id: the (greedy) leading run of
decimal digits, provided it is nonempty and is followed by a hyphen;
returns the captured digit group. -/
def opusMatch (cs : List Char) : Option (List Char) :=
  match cs.takeWhile charIsDigit, cs.dropWhile charIsDigit with
  | [], _ => none
  | ds, '-' :: _ => some ds
  | _, _ => none

/-- Python `f"{n:02d}"` for a nonnegative number. -/
def pad2 (n : Nat) : String :=
  if n < 10 then "0" ++ toString n else toString n

/-- Uppercase ASCII letter test (the regex class `[A-Z]`). -/
def charIsUpperAZ (c : Char) : Bool := 65 ≤ c.toNat && c.toNat ≤ 90

/-- The regex substitution `re.sub(r'[A-Z]+$', '', s)`: remove the maximal
trailing run of uppercase ASCII letters. -/
def stripTrailingUpper (cs : List Char) : List Char :=
  (cs.reverse.dropWhile charIsUpperAZ).reverse

/-- The fixed MateriaHunter storage base path. -/
def mhBase : String :=
  "https://storage.googleapis.com/materiahunter-prod.appspot.com/images/cards/"

/-- fftcg_database_manager.py `get_materia_hunter_url`: match `^(\d+)-`,
check the opus number is in the hard-coded range 1..19, zero-pad it to two
digits, strip the trailing uppercase letters from the id, and compose the
URL; `None` otherwise. -/
def get_materia_hunter_url (card_id : String) : Option String :=
  match opusMatch card_id.data with
  | none => none
  | some ds =>
    let opus_num := natOfDigits ds
    if 1 ≤ opus_num ∧ opus_num ≤ 19 then
      some (mhBase ++ pad2 opus_num ++ "/" ++
        String.mk (stripTrailingUpper card_id.data) ++ ".jpg")
    else none

/-- update_image_mapping.py `get_materia_hunter_opus_directory`: the padded
directory for opus numbers 1..19, `None` otherwise. -/
def uim_get_materia_hunter_opus_directory (card_id : String) : Option String :=
  match opusMatch card_id.data with
  | none => none
  | some ds =>
    let opus_num := natOfDigits ds
    if 1 ≤ opus_num ∧ opus_num ≤ 19 then some (pad2 opus_num) else none

/-- update_image_mapping.py `generate_materia_hunter_url`: compose the URL
from the directory and the letters-stripped card number when the directory
is derivable. -/
def uim_generate_materia_hunter_url (card_id : String) : Option String :=
  match uim_get_materia_hunter_opus_directory card_id with
  | none => none
  | some opus_dir =>
    some (mhBase ++ opus_dir ++ "/" ++
      String.mk (stripTrailingUpper card_id.data) ++ ".jpg")

/-- Character-list test for a literal string prefix of an id. -/
def hasPrefixCL (p : List Char) (cs : List Char) : Bool := p.isPrefixOf cs

/-- generate_materia_hunter_mapping.py `get_materia_hunter_opus_directory`:
`B-` ids map to "boss", `PR-` ids to "promo", and any id matching
`^(\d+)-` maps to the two-digit padded opus number with NO range bound. -/
def gmh_get_materia_hunter_opus_directory (card_id : String) : Option String :=
  if hasPrefixCL ['B', '-'] card_id.data then some "boss"
  else if hasPrefixCL ['P', 'R', '-'] card_id.data then some "promo"
  else
    match opusMatch card_id.data with
    | none => none
    | some ds => some (pad2 (natOfDigits ds))

/-- generate_materia_hunter_mapping.py `generate_materia_hunter_url`. -/
def gmh_generate_materia_hunter_url (card_id : String) : Option String :=
  match gmh_get_materia_hunter_opus_directory card_id with
  | none => none
  | some opus_dir =>
    some (mhBase ++ opus_dir ++ "/" ++
      String.mk (stripTrailingUpper card_id.data) ++ ".jpg")

/-! ### Persisted records, merge/dedup, image-mapping update -/

/-- A canonical card record as persisted in the card-collection JSON file,
restricted to the fields the merge and image-mapping code reads. -/
structure PCard where
  id : String
  name : String
  set : String
  cardNumber : String
  image : Option String
deriving DecidableEq, Repr

/-- The Python sort key `lambda x: (x["set"], x["cardNumber"])` compared with
the tuple (lexicographic) order on strings; string comparison is by code
points, the `String` linear order. -/
def keyLe (a b : PCard) : Prop :=
  a.set < b.set ∨ (a.set = b.set ∧ a.cardNumber ≤ b.cardNumber)

instance : DecidableRel keyLe := fun a b => by
  unfold keyLe; infer_instance

instance : IsTotal PCard keyLe where
  total a b := by
    rcases lt_trichotomy a.set b.set with h | h | h
    · exact Or.inl (Or.inl h)
    · rcases le_total a.cardNumber b.cardNumber with h' | h'
      · exact Or.inl (Or.inr ⟨h, h'⟩)
      · exact Or.inr (Or.inr ⟨h.symm, h'⟩)
    · exact Or.inr (Or.inl h)

instance : IsTrans PCard keyLe where
  trans a b c hab hbc := by
    rcases hab with h1 | ⟨e1, l1⟩
    · rcases hbc with h2 | ⟨e2, _⟩
      · exact Or.inl (h1.trans h2)
      · exact Or.inl (e2 ▸ h1)
    · rcases hbc with h2 | ⟨e2, l2⟩
      · exact Or.inl (e1 ▸ h2)
      · exact Or.inr ⟨e1.trans e2, l1.trans l2⟩

/-- Python stable `list.sort(key=lambda x: (x["set"], x["cardNumber"]))`,
modelled as (stable) insertion sort with respect to `keyLe`. -/
def sortCards (l : List PCard) : List PCard := l.insertionSort keyLe

/-- The dedup loop of fetch_missing_sets.py `main` (and of
fftcg_database_manager.py `fetch_missing_sets`): walk the list, keep a card
only if its id has not been seen yet. -/
def dedupBy : List PCard → List String → List PCard
  | [], _ => []
  | c :: cs, seen =>
    if c.id ∈ seen then dedupBy cs seen
    else c :: dedupBy cs (c.id :: seen)

/-- The merge/dedup step: concatenate existing and new cards, drop
duplicate ids keeping the first occurrence, sort by (set, cardNumber). -/
def mergeDedup (existing_cards new_cards : List PCard) : List PCard :=
  sortCards (dedupBy (existing_cards ++ new_cards) [])

/-- fftcg_database_manager.py `fetch_all_sets` write: concatenate the
per-set fetch results and sort — no dedup pass on this path. -/
def fetch_all_sets_write (results : List (List PCard)) : List PCard :=
  sortCards results.flatten

/-- One entry of the persisted image mapping: name, image URL, source tag. -/
structure Entry where
  name : String
  image : String
  source : String
deriving DecidableEq, Repr

/-- The image mapping file: a dict from card id to entry, in insertion
order. -/
abbrev Mapping := List (String × Entry)

/-- Python dict assignment `m[k] = v`: replace in place when the key is
present, append otherwise. -/
def dictInsert (m : Mapping) (k : String) (v : Entry) : Mapping :=
  match m with
  | [] => [(k, v)]
  | (k', v') :: rest =>
    if k' = k then (k', v) :: rest else (k', v') :: dictInsert rest k v

/-- One iteration of the card loop in fftcg_database_manager.py
`update_image_mappings` (lines 217-240): keep an existing materia-hunter
entry, else prefer a derivable MateriaHunter URL, else fall back to the
primary image if the card has one, else write nothing for this id. -/
def processCard (existing : Mapping) (acc : Mapping) (card : PCard) : Mapping :=
  match alookup card.id existing with
  | some e =>
    if e.source = "materia-hunter" then dictInsert acc card.id e
    else processFresh acc card
  | none => processFresh acc card
where
  processFresh (acc : Mapping) (card : PCard) : Mapping :=
    match get_materia_hunter_url card.id with
    | some u => dictInsert acc card.id ⟨card.name, u, "materia-hunter"⟩
    | none =>
      match card.image with
      | some img => dictInsert acc card.id ⟨card.name, img, "square-enix"⟩
      | none => acc

/-- fftcg_database_manager.py `update_image_mappings` main loop: start from
an empty dict and process every card of the collection in order. -/
def updateImageMappings (cards : List PCard) (existing : Mapping) : Mapping :=
  cards.foldl (processCard existing) []

/-- Outcome of one script run with respect to the persisted file it
rewrites. -/
inductive RunResult (α : Type) where
  | wrote : α → RunResult α
  | noWrite : RunResult α
  | aborted : RunResult α
deriving DecidableEq, Repr

/-- fetch_missing_sets.py `main` as a function of the parsed existing card
file (`none` when the file is missing or unreadable) and the concatenated
newly fetched cards: a load failure prints and returns before anything is
written; an empty fetch result skips the write; otherwise the merged,
deduplicated, sorted collection is written. -/
def fetch_missing_sets_run (existingFile : Option (List PCard))
    (new_cards : List PCard) : RunResult (List PCard) :=
  match existingFile with
  | none => .aborted
  | some existing_cards =>
    if new_cards.isEmpty then .noWrite
    else .wrote (mergeDedup existing_cards new_cards)

/-- fftcg_database_manager.py `update_image_mappings` as a function of the
parsed card-collection file and the parsed image-mapping file: a missing
card file raises out of the function before anything is written, while a
missing mapping file is replaced by the empty dict and the run proceeds. -/
def update_image_mappings_run (cardsFile : Option (List PCard))
    (mappingFile : Option Mapping) : RunResult Mapping :=
  match cardsFile with
  | none => .aborted
  | some cards => .wrote (updateImageMappings cards (mappingFile.getD []))

end FFTCG

namespace FFTCG

/-! ### Helper lemmas for the resolver proofs -/

/-- A suffix test on strings, used to state properties about URL shapes. -/
def strEndsWith (s suffix : String) : Bool := suffix.data.isSuffixOf s.data

theorem charIsDigit_not_upper {c : Char} (h : charIsDigit c = true) :
    charIsUpperAZ c = false := by
  simp only [charIsDigit, Bool.and_eq_true, decide_eq_true_eq] at h
  have h65 : ¬ 65 ≤ c.toNat := by omega
  simp [charIsUpperAZ, h65]

theorem hyphen_not_digit : charIsDigit '-' = false := by decide

/-- The leading-digits-then-hyphen pattern succeeds on a well-shaped id and
captures exactly the digit block. -/
theorem opusMatch_shaped (ds rest : List Char) (hds : ds ≠ [])
    (hdig : ∀ c ∈ ds, charIsDigit c) :
    opusMatch (ds ++ '-' :: rest) = some ds := by
  unfold opusMatch
  rw [List.takeWhile_append_of_pos hdig, List.dropWhile_append_of_pos hdig]
  rw [List.takeWhile_cons_of_neg (by simp [hyphen_not_digit]),
    List.dropWhile_cons_of_neg (by simp [hyphen_not_digit])]
  cases ds with
  | nil => exact absurd rfl hds
  | cons a as => simp

/-- Stripping the trailing uppercase run of a well-shaped id removes exactly
the rarity letters. -/
theorem stripTrailingUpper_shaped (ds m letters : List Char) (hm : m ≠ [])
    (hmd : ∀ c ∈ m, charIsDigit c) (hl : ∀ c ∈ letters, charIsUpperAZ c) :
    stripTrailingUpper (ds ++ '-' :: (m ++ letters)) = ds ++ '-' :: m := by
  unfold stripTrailingUpper
  have hrev : (ds ++ '-' :: (m ++ letters)).reverse =
      letters.reverse ++ (m.reverse ++ '-' :: ds.reverse) := by
    simp [List.reverse_append]
  rw [hrev, List.dropWhile_append_of_pos (by simpa using hl)]
  obtain ⟨c, t, hct⟩ := List.exists_cons_of_ne_nil
    (mt List.reverse_eq_nil_iff.mp hm)
  have hc : c ∈ m := by
    have : c ∈ m.reverse := hct ▸ List.mem_cons_self c t
    simpa using this
  rw [hct, List.cons_append,
    List.dropWhile_cons_of_neg (by simp [charIsDigit_not_upper (hmd c hc)]),
    ← List.cons_append, ← hct]
  simp [List.reverse_append]

end FFTCG

namespace FFTCG

/-- C5: for every identifier of the shape digits-digits-letters whose set
number lies in the hard-coded range 1..19, the image URL resolvers of
fftcg_database_manager.py and update_image_mapping.py return the URL whose
directory is the two-digit zero-padded set number and whose file name is
the identifier with its trailing uppercase letters stripped; in particular
"3-040R" yields a URL ending in "/03/3-040.jpg". -/
theorem claim_C5 (ds m letters : List Char)
    (hds : ds ≠ []) (hdsd : ∀ c ∈ ds, charIsDigit c)
    (hm : m ≠ []) (hmd : ∀ c ∈ m, charIsDigit c)
    (hl : ∀ c ∈ letters, charIsUpperAZ c)
    (h1 : 1 ≤ natOfDigits ds) (h19 : natOfDigits ds ≤ 19) :
    get_materia_hunter_url (String.mk (ds ++ '-' :: (m ++ letters))) =
      some (mhBase ++ pad2 (natOfDigits ds) ++ "/" ++
        String.mk (ds ++ '-' :: m) ++ ".jpg") ∧
    uim_generate_materia_hunter_url (String.mk (ds ++ '-' :: (m ++ letters))) =
      some (mhBase ++ pad2 (natOfDigits ds) ++ "/" ++
        String.mk (ds ++ '-' :: m) ++ ".jpg") ∧
    get_materia_hunter_url "3-040R" = some
      "https://storage.googleapis.com/materiahunter-prod.appspot.com/images/cards/03/3-040.jpg" ∧
    strEndsWith
      "https://storage.googleapis.com/materiahunter-prod.appspot.com/images/cards/03/3-040.jpg"
      "/03/3-040.jpg" = true := by
  have hmatch : opusMatch (String.mk (ds ++ '-' :: (m ++ letters))).data = some ds :=
    opusMatch_shaped ds (m ++ letters) hds hdsd
  have hstrip : stripTrailingUpper (String.mk (ds ++ '-' :: (m ++ letters))).data =
      ds ++ '-' :: m :=
    stripTrailingUpper_shaped ds m letters hm hmd hl
  refine ⟨?_, ?_, by decide, by decide⟩
  · unfold get_materia_hunter_url
    rw [hmatch, hstrip]
    simp [h1, h19]
  · unfold uim_generate_materia_hunter_url uim_get_materia_hunter_opus_directory
    rw [hmatch, hstrip]
    simp [h1, h19]

/-- C5 witness: the theorem applied to the concrete identifier "3-040R"
(digit block "3", card number "040", rarity letter "R"). -/
theorem claim_C5_witness :
    get_materia_hunter_url (String.mk (['3'] ++ '-' :: (['0', '4', '0'] ++ ['R']))) =
      some (mhBase ++ pad2 (natOfDigits ['3']) ++ "/" ++
        String.mk (['3'] ++ '-' :: ['0', '4', '0']) ++ ".jpg") :=
  (claim_C5 ['3'] ['0', '4', '0'] ['R'] (by decide) (by decide) (by decide)
    (by decide) (by decide) (by decide) (by decide)).1

end FFTCG

namespace FFTCG

/-- C6 counterexample: the resolver of generate_materia_hunter_mapping.py
has no supported-range bound, so the identifier "20-001C" — which the claim
says produces no secondary URL — does produce one. -/
theorem claim_C6_cex :
    gmh_generate_materia_hunter_url "20-001C" = some
      "https://storage.googleapis.com/materiahunter-prod.appspot.com/images/cards/20/20-001.jpg" ∧
    gmh_generate_materia_hunter_url "20-001C" ≠ none := by
  refine ⟨by decide, ?_⟩
  intro h
  simp [show gmh_generate_materia_hunter_url "20-001C" = some
      "https://storage.googleapis.com/materiahunter-prod.appspot.com/images/cards/20/20-001.jpg"
    from by decide] at h

/-- C6 (amended): the resolvers of update_image_mapping.py and
fftcg_database_manager.py return no URL for every identifier that does not
match the leading-digits-then-hyphen shape or whose set number is outside
the range 1..19. The generate_materia_hunter_mapping.py resolver applies no
range bound. -/
theorem claim_C6 (card_id : String)
    (h : ∀ ds, opusMatch card_id.data = some ds →
      ¬(1 ≤ natOfDigits ds ∧ natOfDigits ds ≤ 19)) :
    get_materia_hunter_url card_id = none ∧
    uim_generate_materia_hunter_url card_id = none := by
  constructor
  · unfold get_materia_hunter_url
    cases hm : opusMatch card_id.data with
    | none => rfl
    | some ds => simp [h ds hm]
  · unfold uim_generate_materia_hunter_url uim_get_materia_hunter_opus_directory
    cases hm : opusMatch card_id.data with
    | none => rfl
    | some ds => simp [h ds hm]

/-- C6 witness: the theorem applied to "20-001C" (set number 20, outside
the supported range). -/
theorem claim_C6_witness :
    get_materia_hunter_url "20-001C" = none ∧
    uim_generate_materia_hunter_url "20-001C" = none := by
  refine claim_C6 "20-001C" ?_
  intro ds hm
  rw [show opusMatch "20-001C".data = some ['2', '0'] from rfl] at hm
  injection hm with hm
  subst hm
  decide

end FFTCG

namespace FFTCG

/-! ### Lemmas about the dedup pass and the sort -/

theorem sortCards_perm (l : List PCard) : (sortCards l).Perm l :=
  List.perm_insertionSort keyLe l

theorem dedupBy_not_seen :
    ∀ (l : List PCard) (seen : List String), ∀ x ∈ dedupBy l seen, x.id ∉ seen := by
  intro l
  induction l with
  | nil => intro seen x hx; simp [dedupBy] at hx
  | cons c cs ih =>
    intro seen x hx
    by_cases hc : c.id ∈ seen
    · rw [dedupBy, if_pos hc] at hx
      exact ih seen x hx
    · rw [dedupBy, if_neg hc] at hx
      rcases List.mem_cons.mp hx with hx | hx
      · exact hx ▸ hc
      · have := ih (c.id :: seen) x hx
        exact fun hs => this (List.mem_cons_of_mem _ hs)

theorem dedupBy_id_nodup :
    ∀ (l : List PCard) (seen : List String), ((dedupBy l seen).map PCard.id).Nodup := by
  intro l
  induction l with
  | nil => intro seen; simp [dedupBy]
  | cons c cs ih =>
    intro seen
    by_cases hc : c.id ∈ seen
    · rw [dedupBy, if_pos hc]; exact ih seen
    · rw [dedupBy, if_neg hc]
      refine List.nodup_cons.mpr ⟨?_, ih (c.id :: seen)⟩
      intro hmem
      obtain ⟨x, hx, hxid⟩ := List.mem_map.mp hmem
      exact dedupBy_not_seen cs (c.id :: seen) x hx (hxid ▸ List.mem_cons_self _ _)

theorem dedupBy_filter_of_seen (i : String) :
    ∀ (l : List PCard) (seen : List String), i ∈ seen →
      (dedupBy l seen).filter (fun c => c.id == i) = [] := by
  intro l seen hi
  refine List.filter_eq_nil_iff.mpr ?_
  intro x hx
  have := dedupBy_not_seen l seen x hx
  simp only [beq_iff_eq]
  intro hxi
  exact this (hxi ▸ hi)

theorem dedupBy_filter (i : String) :
    ∀ (l : List PCard) (seen : List String), i ∉ seen →
      (dedupBy l seen).filter (fun c => c.id == i) =
        (l.filter (fun c => c.id == i)).take 1 := by
  intro l
  induction l with
  | nil => intro seen _; simp [dedupBy]
  | cons c cs ih =>
    intro seen hi
    by_cases hc : c.id ∈ seen
    · have hne : (c.id == i) = false := by
        simp only [beq_eq_false_iff_ne]
        intro h; exact hi (h ▸ hc)
      rw [dedupBy, if_pos hc, List.filter_cons, hne]
      simpa using ih seen hi
    · rw [dedupBy, if_neg hc]
      by_cases hci : c.id = i
      · have heq : (c.id == i) = true := by simp [hci]
        rw [List.filter_cons, heq]
        simp only [if_pos rfl]
        rw [dedupBy_filter_of_seen i cs (c.id :: seen) (by simp [hci]),
          List.filter_cons, heq]
        simp
      · have hne : (c.id == i) = false := by simp [hci]
        simp only [List.filter_cons, hne, Bool.false_eq_true, if_false]
        refine ih (c.id :: seen) ?_
        intro hmem
        rcases List.mem_cons.mp hmem with h | h
        · exact hci h.symm
        · exact hi h

theorem mergeDedup_id_nodup (existing_cards new_cards : List PCard) :
    ((mergeDedup existing_cards new_cards).map PCard.id).Nodup := by
  have hperm : ((mergeDedup existing_cards new_cards).map PCard.id).Perm
      ((dedupBy (existing_cards ++ new_cards) []).map PCard.id) :=
    (sortCards_perm _).map PCard.id
  exact hperm.nodup_iff.mpr (dedupBy_id_nodup _ [])

/-- C2 counterexample: the fetch-all write path has no dedup pass, so two
per-set results sharing the id "1-001C" are both written and the persisted
collection does not have pairwise-distinct ids. -/
theorem claim_C2_cex :
    ¬ ((fetch_all_sets_write
        [[⟨"1-001C", "Cloud", "Legacy Collection", "1-001C", none⟩],
         [⟨"1-001C", "Cloud", "Opus I", "1-001C", none⟩]]).map PCard.id).Nodup := by
  intro hnodup
  have hperm : ((fetch_all_sets_write
        [[⟨"1-001C", "Cloud", "Legacy Collection", "1-001C", none⟩],
         [⟨"1-001C", "Cloud", "Opus I", "1-001C", none⟩]]).map PCard.id).Perm
      ((([[⟨"1-001C", "Cloud", "Legacy Collection", "1-001C", none⟩],
         [⟨"1-001C", "Cloud", "Opus I", "1-001C", none⟩]] :
          List (List PCard)).flatten).map PCard.id) :=
    (sortCards_perm _).map PCard.id
  have h2 := hperm.nodup_iff.mp hnodup
  simp at h2

/-- C2 (amended): the merge write paths dedup by id keeping the first-seen
occurrence, so their persisted collections have pairwise-distinct ids; the
fetch-all path merely sorts the concatenated per-set results — its output
is a permutation of everything fetched, so duplicate ids are preserved. -/
theorem claim_C2 (existing_cards new_cards : List PCard)
    (results : List (List PCard)) :
    ((mergeDedup existing_cards new_cards).map PCard.id).Nodup ∧
    (fetch_all_sets_write results).Perm results.flatten :=
  ⟨mergeDedup_id_nodup existing_cards new_cards, sortCards_perm _⟩

/-- C3: the merge/dedup step produces a collection with pairwise-distinct
ids that is a permutation of the first-occurrence dedup of
existing-then-new, is sorted ascending by the (set, cardNumber) key, and
retains, for an id present in the existing collection, exactly the existing
collection's first occurrence of that id. -/
theorem claim_C3 (existing_cards new_cards : List PCard) (i : String)
    (e : PCard) (rest : List PCard)
    (h : existing_cards.filter (fun c => c.id == i) = e :: rest) :
    ((mergeDedup existing_cards new_cards).map PCard.id).Nodup ∧
    (mergeDedup existing_cards new_cards).Perm
      (dedupBy (existing_cards ++ new_cards) []) ∧
    List.Sorted keyLe (mergeDedup existing_cards new_cards) ∧
    (mergeDedup existing_cards new_cards).filter (fun c => c.id == i) = [e] := by
  refine ⟨mergeDedup_id_nodup existing_cards new_cards, sortCards_perm _,
    List.sorted_insertionSort keyLe _, ?_⟩
  have hperm : ((mergeDedup existing_cards new_cards).filter
        (fun c => c.id == i)).Perm
      ((dedupBy (existing_cards ++ new_cards) []).filter (fun c => c.id == i)) :=
    (sortCards_perm _).filter _
  rw [dedupBy_filter i (existing_cards ++ new_cards) [] (by simp),
    List.filter_append, h] at hperm
  simpa using List.perm_singleton.mp (by simpa using hperm)

/-- C3 witness: merging an existing collection containing id "1-001C" with
a newly fetched collection carrying a conflicting record for the same id
retains the existing entry. -/
theorem claim_C3_witness :
    (mergeDedup
        [⟨"1-001C", "Cloud", "Opus I", "1-001C", none⟩,
         ⟨"1-002C", "Tifa", "Opus I", "1-002C", none⟩]
        [⟨"1-001C", "Cloud (reprint)", "Opus I", "1-001C", none⟩]).filter
      (fun c => c.id == "1-001C") =
      [⟨"1-001C", "Cloud", "Opus I", "1-001C", none⟩] :=
  (claim_C3
    [⟨"1-001C", "Cloud", "Opus I", "1-001C", none⟩,
     ⟨"1-002C", "Tifa", "Opus I", "1-002C", none⟩]
    [⟨"1-001C", "Cloud (reprint)", "Opus I", "1-001C", none⟩]
    "1-001C" ⟨"1-001C", "Cloud", "Opus I", "1-001C", none⟩ []
    (by decide)).2.2.2

end FFTCG

namespace FFTCG

/-! ### Lemmas about the image-mapping update -/

theorem alookup_dictInsert (m : Mapping) (k k' : String) (v : Entry) :
    alookup k (dictInsert m k' v) = if k' = k then some v else alookup k m := by
  induction m with
  | nil => simp [dictInsert, alookup]
  | cons a rest ih =>
    obtain ⟨ak, av⟩ := a
    by_cases hak : ak = k'
    · subst hak
      simp only [dictInsert, if_pos rfl, alookup]
      by_cases hk : ak = k
      · simp [hk]
      · simp [hk, alookup]
    · simp only [dictInsert, if_neg hak, alookup, ih]
      by_cases hk : ak = k
      · subst hk
        have : ¬ k' = ak := fun h => hak h.symm
        simp [this]
      · simp [hk]

theorem processFresh_other (acc : Mapping) (c : PCard) (k : String)
    (hk : k ≠ c.id) :
    alookup k (processCard.processFresh acc c) = alookup k acc := by
  have hne : ¬ c.id = k := fun h => hk h.symm
  unfold processCard.processFresh
  cases get_materia_hunter_url c.id with
  | some u => simp [alookup_dictInsert, hne]
  | none =>
    cases c.image with
    | some img => simp [alookup_dictInsert, hne]
    | none => rfl

theorem processCard_other (existing acc : Mapping) (c : PCard) (k : String)
    (hk : k ≠ c.id) :
    alookup k (processCard existing acc c) = alookup k acc := by
  have hne : ¬ c.id = k := fun h => hk h.symm
  unfold processCard
  cases alookup c.id existing with
  | some e =>
    by_cases hs : e.source = "materia-hunter"
    · simp [hs, alookup_dictInsert, hne]
    · simp [hs, processFresh_other acc c k hk]
  | none => simp [processFresh_other acc c k hk]

theorem foldl_processCard_other (existing : Mapping) (cs : List PCard) :
    ∀ (acc : Mapping) (k : String), k ∉ cs.map PCard.id →
      alookup k (cs.foldl (processCard existing) acc) = alookup k acc := by
  induction cs with
  | nil => intro acc k _; rfl
  | cons c rest ih =>
    intro acc k hk
    rw [List.map_cons] at hk
    have hk1 : k ≠ c.id := fun h => hk (h ▸ List.mem_cons_self _ _)
    have hk2 : k ∉ rest.map PCard.id := fun h => hk (List.mem_cons_of_mem _ h)
    rw [List.foldl_cons, ih (processCard existing acc c) k hk2,
      processCard_other existing acc c k hk1]

theorem alookup_eq_none_iff {α : Type} (k : String) (m : List (String × α)) :
    alookup k m = none ↔ k ∉ m.map Prod.fst := by
  induction m with
  | nil => simp [alookup]
  | cons a rest ih =>
    obtain ⟨ak, av⟩ := a
    by_cases hak : ak = k
    · subst hak
      simp [alookup]
    · simp [alookup, hak, ih, Ne.symm hak]

/-- C4: for a card collection with pairwise-distinct ids, the rewritten
mapping entry of each processed card id follows the precedence rule of
`update_image_mappings`: an existing preferred (materia-hunter) entry is
kept unchanged; otherwise a derivable MateriaHunter URL wins; otherwise the
primary (square-enix) image of the record is used; otherwise the id is
absent from the output mapping. -/
theorem claim_C4 (cards : List PCard) (existing : Mapping) (c : PCard)
    (hc : c ∈ cards) (hnd : (cards.map PCard.id).Nodup) :
    (∀ e, alookup c.id existing = some e → e.source = "materia-hunter" →
      alookup c.id (updateImageMappings cards existing) = some e) ∧
    ((∀ e, alookup c.id existing = some e → e.source ≠ "materia-hunter") →
      (∀ u, get_materia_hunter_url c.id = some u →
        alookup c.id (updateImageMappings cards existing) =
          some ⟨c.name, u, "materia-hunter"⟩) ∧
      (get_materia_hunter_url c.id = none →
        (∀ img, c.image = some img →
          alookup c.id (updateImageMappings cards existing) =
            some ⟨c.name, img, "square-enix"⟩) ∧
        (c.image = none →
          alookup c.id (updateImageMappings cards existing) = none))) := by
  obtain ⟨l₁, l₂, rfl⟩ := List.append_of_mem hc
  have hmap : (l₁ ++ c :: l₂).map PCard.id =
      l₁.map PCard.id ++ c.id :: l₂.map PCard.id := by simp
  rw [hmap] at hnd
  obtain ⟨-, hnd2, hdisj⟩ := List.nodup_append.mp hnd
  have hid1 : c.id ∉ l₁.map PCard.id := fun h =>
    hdisj h (List.mem_cons_self _ _)
  have hid2 : c.id ∉ l₂.map PCard.id := (List.nodup_cons.mp hnd2).1
  have hfold : updateImageMappings (l₁ ++ c :: l₂) existing =
      l₂.foldl (processCard existing)
        (processCard existing (l₁.foldl (processCard existing) []) c) := by
    simp [updateImageMappings, List.foldl_append]
  have hacc0 : alookup c.id (l₁.foldl (processCard existing) []) = none := by
    rw [foldl_processCard_other existing l₁ [] c.id hid1]; rfl
  have hmain : alookup c.id (updateImageMappings (l₁ ++ c :: l₂) existing) =
      alookup c.id
        (processCard existing (l₁.foldl (processCard existing) []) c) := by
    rw [hfold, foldl_processCard_other existing l₂ _ c.id hid2]
  constructor
  · intro e he hsrc
    rw [hmain]
    unfold processCard
    rw [he]
    simp [hsrc, alookup_dictInsert]
  · intro hno
    have hfresh : alookup c.id (updateImageMappings (l₁ ++ c :: l₂) existing) =
        alookup c.id
          (processCard.processFresh (l₁.foldl (processCard existing) []) c) := by
      rw [hmain]
      unfold processCard
      cases he : alookup c.id existing with
      | some e => simp [hno e he]
      | none => rfl
    constructor
    · intro u hu
      rw [hfresh]
      unfold processCard.processFresh
      rw [hu]
      simp [alookup_dictInsert]
    · intro hnone
      constructor
      · intro img himg
        rw [hfresh]
        unfold processCard.processFresh
        rw [hnone, himg]
        simp [alookup_dictInsert]
      · intro himgnone
        rw [hfresh]
        unfold processCard.processFresh
        rw [hnone, himgnone]
        exact hacc0

/-- C4 witness: a collection holding the single card "1-001C" whose
existing mapping entry is already attributed to materia-hunter keeps that
entry unchanged. -/
theorem claim_C4_witness :
    alookup "1-001C"
      (updateImageMappings [⟨"1-001C", "Cloud", "Opus I", "1-001C", none⟩]
        [("1-001C", ⟨"Cloud", "https://example/custom.jpg", "materia-hunter"⟩)]) =
      some ⟨"Cloud", "https://example/custom.jpg", "materia-hunter"⟩ :=
  (claim_C4 [⟨"1-001C", "Cloud", "Opus I", "1-001C", none⟩]
    [("1-001C", ⟨"Cloud", "https://example/custom.jpg", "materia-hunter"⟩)]
    ⟨"1-001C", "Cloud", "Opus I", "1-001C", none⟩
    (List.mem_cons_self _ _) (by simp)).1
    ⟨"Cloud", "https://example/custom.jpg", "materia-hunter"⟩ rfl rfl

/-- C10: every key of the rewritten image mapping is the id of some card in
the current card collection; consequently any id absent from the collection
— even one whose existing entry is attributed to the preferred source — is
dropped from the persisted mapping. -/
theorem claim_C10 (cards : List PCard) (existing : Mapping) (k : String) :
    (k ∈ (updateImageMappings cards existing).map Prod.fst →
      k ∈ cards.map PCard.id) ∧
    (k ∉ cards.map PCard.id →
      alookup k (updateImageMappings cards existing) = none) := by
  have hnone : k ∉ cards.map PCard.id →
      alookup k (updateImageMappings cards existing) = none := by
    intro hk
    rw [updateImageMappings, foldl_processCard_other existing cards [] k hk]
    rfl
  refine ⟨?_, hnone⟩
  intro hkeys
  by_contra hk
  exact ((alookup_eq_none_iff k _).mp (hnone hk)) hkeys

/-- C10 witness: an existing preferred-source entry for id "9-999Z", which
no longer occurs in the card collection, is absent from the rewritten
mapping. -/
theorem claim_C10_witness :
    alookup "9-999Z"
      (updateImageMappings [⟨"1-001C", "Cloud", "Opus I", "1-001C", none⟩]
        [("9-999Z", ⟨"Gone", "https://example/gone.jpg", "materia-hunter"⟩)]) =
      none :=
  (claim_C10 [⟨"1-001C", "Cloud", "Opus I", "1-001C", none⟩]
    [("9-999Z", ⟨"Gone", "https://example/gone.jpg", "materia-hunter"⟩)]
    "9-999Z").2 (by simp)

end FFTCG

namespace FFTCG

/-- C9 counterexample: an image-mapping update run whose persisted mapping
file is missing does not abort — it proceeds with an empty base mapping and
writes a freshly built mapping. -/
theorem claim_C9_cex :
    update_image_mappings_run
        (some [⟨"1-001C", "Cloud", "Opus I", "1-001C", none⟩]) none =
      .wrote (updateImageMappings
        [⟨"1-001C", "Cloud", "Opus I", "1-001C", none⟩] []) ∧
    update_image_mappings_run
        (some [⟨"1-001C", "Cloud", "Opus I", "1-001C", none⟩]) none ≠
      RunResult.aborted := by
  constructor
  · rfl
  · intro h
    exact RunResult.noConfusion h

/-- C9 (amended): the card-collection merge run aborts without writing when
its persisted card file is missing, and the image-mapping update run aborts
when the card-collection file is missing; but a missing image-mapping file
does not abort the image-mapping merge — the run proceeds with an empty
base mapping and writes. -/
theorem claim_C9 (new_cards : List PCard) (mappingFile : Option Mapping)
    (cards : List PCard) :
    fetch_missing_sets_run none new_cards = .aborted ∧
    update_image_mappings_run none mappingFile = .aborted ∧
    update_image_mappings_run (some cards) none =
      .wrote (updateImageMappings cards []) := by
  exact ⟨rfl, rfl, rfl⟩

end FFTCG

namespace FFTCG

/-- Reduction of the manager normalizer on a record carrying only cost and
power fields: every other field takes its documented default and the
conversion cannot raise, since `safe_int` is total. -/
theorem manager_normalize_cost_power (v w : JValue) :
    manager_normalize [("cost", v), ("power", w)] "S" = .ok
      { id := .jstr "unknown", name := .jstr "", element := "unknown",
        type := "unknown", cost := safe_int v 0,
        power := if truthy w then some (safe_int w 0) else none,
        job := .jstr "", category := .jstr "", rarity := "C",
        text := .jstr "", set := "S", cardNumber := .jstr "unknown",
        image := none, source := "square-api", hasRealImage := true } := rfl

/-- C7 (amended): the manager normalizer computes cost with `safe_int`:
zero whenever the raw value is falsy or `str(value).isdigit()` fails, the
parsed integer for digit strings, and the value itself for any truthy
number passing the digit test. Power is absent exactly when the raw power
is falsy; a truthy raw power is passed through `safe_int`, so a truthy
non-digit power (e.g. "X") yields power 0 — present — not absent. -/
theorem claim_C7 (v w : JValue) (c : NCard)
    (h : manager_normalize [("cost", v), ("power", w)] "S" = .ok c) :
    ((truthy v = false ∨ pyIsDigit (pyStr v) = false) → c.cost = 0) ∧
    (∀ s, v = .jstr s → pyIsDigit s = true → c.cost = (natOfDigits s.data : Int)) ∧
    (∀ n, v = .jnum n → truthy v = true → pyIsDigit (pyStr v) = true → c.cost = n) ∧
    (truthy w = false → c.power = none) ∧
    (truthy w = true → pyIsDigit (pyStr w) = false → c.power = some 0) ∧
    (∀ s, w = .jstr s → pyIsDigit s = true → c.power = some (natOfDigits s.data : Int)) := by
  rw [manager_normalize_cost_power] at h
  injection h with h
  subst h
  refine ⟨?_, ?_, ?_, ?_, ?_, ?_⟩
  · rintro (hv | hv) <;> simp [safe_int, hv]
  · rintro s rfl hs
    have hne : s ≠ "" := by
      intro h0
      rw [h0] at hs
      exact absurd hs (by decide)
    simp [safe_int, truthy, hne, pyStr, hs]
  · rintro n rfl ht hd
    simp [safe_int, ht, hd]
  · intro hw
    simp [hw]
  · intro hw hd
    simp [hw, safe_int, hd]
  · rintro s rfl hs
    have hne : s ≠ "" := by
      intro h0
      rw [h0] at hs
      exact absurd hs (by decide)
    simp [truthy, hne, safe_int, pyStr, hs]

/-- C7 witness: cost "3" parses to 3 while the truthy non-digit power "X"
becomes 0 (present), applying the theorem at that record. -/
theorem claim_C7_witness :
    (manager_normalize [("cost", JValue.jstr "3"), ("power", JValue.jstr "X")]
        "S").map (fun c => (c.cost, c.power)) = .ok (3, some 0) := by
  obtain ⟨c, h⟩ : ∃ c, manager_normalize
      [("cost", JValue.jstr "3"), ("power", JValue.jstr "X")] "S" = .ok c :=
    ⟨_, rfl⟩
  have hc := claim_C7 (.jstr "3") (.jstr "X") c h
  have h3 : c.cost = 3 := by
    have := hc.2.1 "3" rfl (by decide)
    simpa [natOfDigits] using this
  have hp : c.power = some 0 := hc.2.2.2.2.1 (by decide) (by decide)
  rw [h]
  simp [Except.map, h3, hp]

/-- C7 counterexample: the claim says a truthy non-digit power yields power
absent, but the manager normalizer yields power 0, present. -/
theorem claim_C7_cex :
    (manager_normalize [("power", JValue.jstr "X")] "S").map
      (fun c => c.power) = .ok (some 0) ∧ some (0 : Int) ≠ none := by
  exact ⟨rfl, by simp⟩

/-- C8 counterexample: the fetch_fftcg_data.py normalizer passes
`card_data.get("rarity", "")` to `rarity_mapping`, so a record with the
rarity field absent is normalized to the empty string, not to "C". -/
theorem claim_C8_cex :
    (fetchDataNormalize [("code", .jstr "1-001C"), ("element", .jnull)]
        "Opus I").map (fun c => c.rarity) = .ok "" ∧ ("" : String) ≠ "C" :=
  ⟨rfl, by decide⟩

/-- C8 (amended): the normalized rarity is the raw string value uppercased
in every script; an absent or falsy rarity defaults to "C" in
fetch_missing_sets.py `rarity_mapping` and in the database manager, but
fetch_fftcg_data.py substitutes the empty-string default before
uppercasing, so an absent rarity yields "" there. -/
theorem claim_C8 (s : String) (h : s ≠ "") :
    rarity_mapping (.jstr s) = upperStr s ∧
    rarity_mapping .jnull = "C" ∧
    rarity_mapping (.jstr "") = "C" ∧
    rarity_mapping_fd (.jstr s) = .ok (upperStr s) ∧
    m_rarity [] = "C" ∧
    m_rarity [("rarity", .jstr s)] = upperStr s ∧
    (fetchDataNormalize [("code", .jstr "1-001C"), ("element", .jnull)]
        "Opus I").map (fun c => c.rarity) = .ok "" := by
  refine ⟨?_, rfl, rfl, rfl, rfl, rfl, rfl⟩
  simp [rarity_mapping, truthy, h, pyStr]

/-- C8 witness: the theorem applied at the nonempty raw rarity "r". -/
theorem claim_C8_witness :
    rarity_mapping (JValue.jstr "r") = "R" ∧
    rarity_mapping JValue.jnull = "C" := by
  have h := claim_C8 "r" (by decide)
  exact ⟨(h.1).trans (by decide), h.2.1⟩

end FFTCG

namespace FFTCG

/-! ### C1: exception behaviour of the fetch_fftcg_data.py normalizer -/

theorem exceptBind_ok {α β : Type} (a : α) (f : α → Except PyErr β) :
    (Except.ok a >>= f) = f a := rfl

/-- A raw field that is absent or carries a string value. -/
def strOpt : Option JValue → Prop
  | none => True
  | some v => ∃ s, v = JValue.jstr s

/-- Raw element values the fetch_fftcg_data.py normalizer handles without
raising: falsy, a nonempty string, or a list headed by a string. -/
def elemOK (v : JValue) : Prop :=
  truthy v = false ∨ (∃ s, v = JValue.jstr s ∧ s ≠ "") ∨
    (∃ s t, v = JValue.jarr (JValue.jstr s :: t))

/-- Values of the "full" key that survive the unguarded `[0]` index: a
nonempty string or a nonempty list. -/
def fullOK (w : JValue) : Prop :=
  (∃ s, w = JValue.jstr s ∧ s ≠ "") ∨ (∃ x t, w = JValue.jarr (x :: t))

/-- Raw images fields the normalizer handles without raising: absent, or a
dict whose "full" key is absent or maps to a nonempty string or list. -/
def imagesOK : Option JValue → Prop
  | none => True
  | some v => ∃ kvs, v = JValue.jobj kvs ∧
      (alookup "full" kvs = none ∨
        ∃ w, alookup "full" kvs = some w ∧ fullOK w)

theorem str_data_of_ne {s : String} (h : s ≠ "") :
    ∃ c cs, s.data = c :: cs := by
  obtain ⟨data⟩ := s
  cases data with
  | nil => exact absurd rfl h
  | cons c cs => exact ⟨c, cs, rfl⟩

theorem any_key_eq_isSome {α : Type} (k : String) (kvs : List (String × α)) :
    (kvs.any fun kv => kv.1 == k) = (alookup k kvs).isSome := by
  induction kvs with
  | nil => simp [alookup]
  | cons a rest ih =>
    obtain ⟨ak, av⟩ := a
    by_cases hak : ak = k
    · simp [alookup, hak]
    · simp [alookup, hak, ih]

theorem fd_element_ok (ev : JValue) (h : elemOK ev) :
    ∃ s, fd_element ev = .ok s := by
  rcases h with hf | ⟨s, rfl, hs⟩ | ⟨s, t, rfl⟩
  · exact ⟨"unknown", by simp [fd_element, hf]⟩
  · obtain ⟨c, cs, hdata⟩ := str_data_of_ne hs
    have ht : truthy (JValue.jstr s) = true := by simp [truthy, hs]
    refine ⟨(alookup (String.mk [c]) elementTable).getD (lowerStr (String.mk [c])), ?_⟩
    rw [fd_element, if_pos ht]
    simp [pyIndex0, hdata, exceptBind_ok, element_mapping_fd]
  · refine ⟨(alookup s elementTable).getD (lowerStr s), ?_⟩
    rw [fd_element, if_pos (by simp [truthy])]
    simp [pyIndex0, exceptBind_ok, element_mapping_fd]

theorem type_fd_ok (r : RawCard) (h : strOpt (alookup "type_en" r)) :
    ∃ s, type_mapping_fd (pyGetD r "type_en" (.jstr "")) = .ok s := by
  unfold pyGetD
  cases hl : alookup "type_en" r with
  | none => exact ⟨"", by simp [type_mapping_fd, lowerStr, typeTable, alookup]⟩
  | some v =>
    rw [hl] at h
    obtain ⟨s, rfl⟩ := h
    exact ⟨(alookup s typeTable).getD (lowerStr s), rfl⟩

theorem fd_cost_ok (r : RawCard) (h : strOpt (alookup "cost" r)) :
    ∃ n, fd_cost r = .ok n := by
  unfold fd_cost
  cases hl : alookup "cost" r with
  | none => exact ⟨0, rfl⟩
  | some v =>
    rw [hl] at h
    obtain ⟨s, rfl⟩ := h
    exact ⟨_, rfl⟩

theorem fd_power_ok (r : RawCard) (h : strOpt (alookup "power" r)) :
    ∃ p, fd_power r = .ok p := by
  unfold fd_power
  cases hl : alookup "power" r with
  | none => exact ⟨none, rfl⟩
  | some v =>
    rw [hl] at h
    obtain ⟨s, rfl⟩ := h
    exact ⟨_, rfl⟩

theorem rarity_fd_ok (r : RawCard) (h : strOpt (alookup "rarity" r)) :
    ∃ s, rarity_mapping_fd (pyGetD r "rarity" (.jstr "")) = .ok s := by
  unfold pyGetD
  cases hl : alookup "rarity" r with
  | none => exact ⟨_, rfl⟩
  | some v =>
    rw [hl] at h
    obtain ⟨s, rfl⟩ := h
    exact ⟨_, rfl⟩

theorem fd_image_ok (r : RawCard) (h : imagesOK (alookup "images" r)) :
    ∃ o, fd_image r = .ok o := by
  unfold fd_image
  cases hl : alookup "images" r with
  | none => exact ⟨none, rfl⟩
  | some v =>
    rw [hl] at h
    obtain ⟨kvs, rfl, hfull⟩ := h
    rcases hfull with hnone | ⟨w, hsome, hw⟩
    · refine ⟨none, ?_⟩
      have : (kvs.any fun kv => kv.1 == "full") = false := by
        rw [any_key_eq_isSome, hnone]; rfl
      simp only [pyContains, this, exceptBind_ok, Bool.false_eq_true, if_false]
      rfl
    · have hany : (kvs.any fun kv => kv.1 == "full") = true := by
        rw [any_key_eq_isSome, hsome]; rfl
      rcases hw with ⟨s, rfl, hs⟩ | ⟨x, t, rfl⟩
      · obtain ⟨c, cs, hdata⟩ := str_data_of_ne hs
        refine ⟨some (.jstr (String.mk [c])), ?_⟩
        simp [pyContains, hany, exceptBind_ok, pyGetItemJ, hsome, pyIndex0, hdata]
      · refine ⟨some x, ?_⟩
        simp [pyContains, hany, exceptBind_ok, pyGetItemJ, hsome, pyIndex0]

/-- C1 counterexample: the empty raw record — every field absent — makes
the fetch_fftcg_data.py normalizer raise `KeyError` at `card_data["code"]`
instead of producing a canonical record. -/
theorem claim_C1_cex :
    fetchDataNormalize [] "Opus I" = .error .keyError := rfl

/-- C1 (amended): the fetch_fftcg_data.py normalizer produces one canonical
card record, raising no exception, for every raw record whose code and
element keys are present, whose element value is falsy, a nonempty string,
or a list headed by a string, whose type_en, cost, power and rarity values
are strings when present, and whose images value, when present, is a dict
whose "full" entry (if any) is a nonempty string or list; outside this
class the conversion can raise (the empty record raises KeyError). -/
theorem claim_C1 (card_data : RawCard) (set_name : String) (cv ev : JValue)
    (hcode : alookup "code" card_data = some cv)
    (helem : alookup "element" card_data = some ev)
    (hev : elemOK ev)
    (hty : strOpt (alookup "type_en" card_data))
    (hcost : strOpt (alookup "cost" card_data))
    (hpow : strOpt (alookup "power" card_data))
    (hrar : strOpt (alookup "rarity" card_data))
    (himg : imagesOK (alookup "images" card_data)) :
    ∃ c, fetchDataNormalize card_data set_name = .ok c := by
  obtain ⟨el, hel⟩ := fd_element_ok ev hev
  obtain ⟨ty, hty2⟩ := type_fd_ok card_data hty
  obtain ⟨n, hn⟩ := fd_cost_ok card_data hcost
  obtain ⟨p, hp⟩ := fd_power_ok card_data hpow
  obtain ⟨ra, hra⟩ := rarity_fd_ok card_data hrar
  obtain ⟨o, ho⟩ := fd_image_ok card_data himg
  have hres : fetchDataNormalize card_data set_name = .ok
      { id := cv, name := pyGetD card_data "name_en" (.jstr ""),
        element := el, type := ty, cost := n, power := p,
        job := pyGetD card_data "job_en" (.jstr ""),
        category := pyGetD card_data "category_1" (.jstr ""), rarity := ra,
        text := pyGetD card_data "text_en" (.jstr ""), set := set_name,
        cardNumber := cv, image := o, source := "square-api",
        hasRealImage := true } := by
    unfold fetchDataNormalize
    simp only [show pyGetItem card_data "code" = .ok cv from by simp [pyGetItem, hcode],
      show pyGetItem card_data "element" = .ok ev from by simp [pyGetItem, helem],
      hel, hty2, hn, hp, hra, ho, exceptBind_ok]
    rfl
  exact ⟨_, hres⟩

/-- C1 witness: a fully well-shaped raw record is normalized without any
exception. -/
theorem claim_C1_witness :
    ∃ c, fetchDataNormalize
      [("code", .jstr "1-001C"), ("element", .jarr [.jstr "火"]),
       ("cost", .jstr "3"), ("rarity", .jstr "r"),
       ("images", .jobj [("full", .jarr [.jstr "https://example/full.jpg"])])]
      "Opus I" = .ok c :=
  claim_C1
    [("code", .jstr "1-001C"), ("element", .jarr [.jstr "火"]),
     ("cost", .jstr "3"), ("rarity", .jstr "r"),
     ("images", .jobj [("full", .jarr [.jstr "https://example/full.jpg"])])]
    "Opus I" (.jstr "1-001C") (.jarr [.jstr "火"]) rfl rfl
    (Or.inr (Or.inr ⟨"火", [], rfl⟩))
    trivial
    ⟨"3", rfl⟩
    trivial
    ⟨"r", rfl⟩
    ⟨[("full", .jarr [.jstr "https://example/full.jpg"])], rfl,
      Or.inr ⟨.jarr [.jstr "https://example/full.jpg"], rfl,
        Or.inr ⟨.jstr "https://example/full.jpg", [], rfl⟩⟩⟩

end FFTCG
